import Mathlib

/-!
# Verification of the hotel-best-price agent (`ai_agents_course.py`)

A shallow embedding of the core of `src/ai_agents_course.py`: the four tools
(`get_iata_of_city`, `get_best_offer`, `get_price_in_wanted_currency`,
`about_you`), the agent-loop graph (`calling_model` / `calling_tools` /
`continue_or_end` and the `workflow` wiring), and theorems settling the
behavioural claims about them.

Modelling conventions:
* External collaborators (the Amadeus client, `requests.get`, the reasoning
  model) are parameters of the embedded functions: an `Except` value models a
  call that may raise, and an oracle `Nat → OfferCall` models the sequence of
  offer-search responses observed by the retry loop.
* A Python exception crossing a boundary is `Except.error`; a caught exception
  is reflected by the embedded function returning the source's error dict.
* Python decimal price strings and `float(...)` values are modelled by `ℚ`.
  `float` rounding is monotone, so order comparisons made by the code are
  preserved; where the code stores the raw price string we store the same `ℚ`.
* Python `dict`s are insertion-ordered association lists; assignment to an
  existing key updates in place, a new key is appended (CPython semantics).
-/

/-- A Python scalar value as it appears in tool dictionaries. -/
inductive PyVal
  | vNone
  | vStr (s : String)
  | vNum (q : ℚ)
deriving DecidableEq, Repr

/-! ## Currency conversion tool (`get_price_in_wanted_currency`, lines 110-128)

The body performs `requests.get(url)` and `response.json()` with **no**
`try/except`.  The outcome of that fetch is modelled by `FetchOutcome`:
`raise e` is an exception from `requests.get`/`.json()`; `result d` is a
returned JSON value, where the outer `Option` is Python truthiness of `data`
(`none` = falsy) and the inner `Option` is presence of the
`'conversion_rates'` key (its absence makes `data['conversion_rates']` raise
`KeyError`). -/
inductive FetchOutcome
  | raise (e : String)
  | result (data : Option (Option (List (String × ℚ))))
deriving DecidableEq, Repr

/-- A value returned by the currency tool: `{'price': str(price * x)}` or
`{"error": "Could Not Estimate Price"}`. The converted amount is modelled by
its numeric value. -/
inductive CurrencyOut
  | price (p : ℚ)
  | err (msg : String)
deriving DecidableEq, Repr

/-- Embedding of `get_price_in_wanted_currency` (lines 111-128).  `Except.error`
is an exception escaping the tool (there is no `try/except` in the source):
a raising fetch propagates verbatim, and a truthy `data` without a
`'conversion_rates'` key raises `KeyError` at line 121. `currentCurrency` only
selects the fetched rate table, which is already summarised by `fetch`. -/
def get_price_in_wanted_currency (fetch : FetchOutcome)
    (wantedCurrency currentCurrency : String) (price : ℚ) :
    Except String CurrencyOut :=
  match fetch with
  | .raise e => .error e
  | .result none => .ok (.err "Could Not Estimate Price")
  | .result (some none) => .error "KeyError: conversion_rates"
  | .result (some (some rates)) =>
    match rates.lookup wantedCurrency with
    | some x => .ok (.price (price * x))
    | none => .ok (.err "Could Not Estimate Price")

/-! ## Location resolution tool (`get_iata_of_city`, lines 30-54) -/

/-- One record of the location provider's result list (interface §6):
`{name, address:{countryCode,...}, geoCode:{...}, iataCode}`.  `name` and
`iataCode` are `Option` because the code reads them with `.get` (absent keys
give Python `None`). -/
structure CityRecord where
  name : Option String
  iataCode : Option String
  address : List (String × PyVal)
  geoCode : List (String × PyVal)
deriving DecidableEq, Repr

/-- Python dict assignment `d[k] = v` on an insertion-ordered dict: update in
place if the key exists, else append. -/
def dictSet (d : List (String × PyVal)) (k : String) (v : PyVal) :
    List (String × PyVal) :=
  if d.any (fun kv => kv.1 = k) then
    d.map (fun kv => if kv.1 = k then (k, v) else kv)
  else d ++ [(k, v)]

/-- The outer output dict of `get_iata_of_city`, keyed by the record's
`iataCode` (which may be Python `None`): same update-or-append semantics. -/
def outSet (d : List (Option String × List (String × PyVal)))
    (k : Option String) (v : List (String × PyVal)) :
    List (Option String × List (String × PyVal)) :=
  if d.any (fun kv => kv.1 = k) then
    d.map (fun kv => if kv.1 = k then (k, v) else kv)
  else d ++ [(k, v)]

/-- Lines 44-49: build one output entry: `{}` then `'name'`, then every
address key, then every geoCode key. -/
def entryOf (i : CityRecord) : List (String × PyVal) :=
  let d0 : List (String × PyVal) :=
    [("name", match i.name with | some s => .vStr s | none => .vNone)]
  let d1 := i.address.foldl (fun d kv => dictSet d kv.1 kv.2) d0
  i.geoCode.foldl (fun d kv => dictSet d kv.1 kv.2) d1

/-- Lines 41-49: `outputDict`, accumulated over the (possibly fallen-back)
record list in order. -/
def buildOutput (records : List CityRecord) :
    List (Option String × List (String × PyVal)) :=
  records.foldl (fun d i => outSet d i.iataCode (entryOf i)) []

/-- Line 37's filter predicate:
`i.get('address').get('countryCode') == country` — true exactly when the
address holds the string `country` under `'countryCode'` (a missing key gives
`None`, and `None == country` is `False`; a non-string value also compares
unequal). -/
def countryMatches (country : String) (i : CityRecord) : Bool :=
  i.address.lookup "countryCode" = some (.vStr country)

/-- Result of `get_iata_of_city`: the normal output mapping, or the error
dict `{"error": "The city not found (no IATA code)."}` from the `except`. -/
inductive GeoOut
  | dict (d : List (Option String × List (String × PyVal)))
  | errorDict (msg : String)
deriving DecidableEq, Repr

/-- Embedding of `get_iata_of_city` (lines 31-54). `fetch` is the outcome of
`amadeus.reference_data.locations.cities.get(keyword=city).data`
(`.error` = the provider call raised; the bare `except` maps any raise to the
error dict).  `city` only feeds the fetch keyword. -/
def get_iata_of_city (fetch : Except Unit (List CityRecord))
    (city country : String) : GeoOut :=
  match fetch with
  | .error _ => .errorDict "The city not found (no IATA code)."
  | .ok cities =>
    let reducedCityNames := cities.filter (countryMatches country)
    let finalNames := if reducedCityNames.isEmpty then cities
                      else reducedCityNames
    .dict (buildOutput finalNames)

/-! ## Hotel best-offer search tool (`get_best_offer`, lines 62-103) -/

/-- One offer inside a hotel-offer record: `price.total` (its numeric value),
`price.currency`, `room.description.text`. -/
structure Offer where
  priceTotal : ℚ
  currency : String
  roomDesc : String
deriving DecidableEq, Repr

/-- One element of `req.data`: `{hotel: {name}, offers: [...]}`. -/
structure HotelOffer where
  hotelName : String
  offers : List Offer
deriving DecidableEq, Repr

/-- The dict built at lines 91-99 when a strictly better price is seen. -/
structure OfferRecord where
  hotelName : String
  offerTotalAccommodationAmount : ℚ
  offerCurrency : String
  offerRoomDescription : String
  people : Int
  checkInDate : String
  checkOutDate : String
deriving DecidableEq, Repr

/-- Outcome of one `amadeus.shopping.hotel_offers_search.get` call:
an exception, a falsy response (`not req` stays true), or a truthy response
carrying `req.data`. -/
inductive OfferCall
  | raise
  | nodata
  | data (offers : List HotelOffer)
deriving DecidableEq, Repr

/-- Lines 73-78: the retry loop `while not req and j < 5` for one batch.
`calls` is the oracle of successive provider responses, `k` the index of the
next call, the `Nat` argument the remaining attempts (5 at entry).  Returns
the loop's outcome (`.error` = a call raised, escaping to the outer
`except`; `.ok none` = all attempts falsy; `.ok (some d)` = a truthy response
with data `d`) together with the number of calls made. -/
def attemptLoop (calls : Nat → OfferCall) (k : Nat) :
    Nat → Except Unit (Option (List HotelOffer)) × Nat
  | 0 => (.ok none, 0)
  | fuel + 1 =>
    match calls k with
    | .raise => (.error (), 1)
    | .data d => (.ok (some d), 1)
    | .nodata =>
      let r := attemptLoop calls (k + 1) fuel
      (r.1, r.2 + 1)

/-- Lines 71-81: `for i in range(0, 99, 50)` — the two batches `ids[0:50]` and
`ids[50:100]`, each run through the retry loop, truthy results' data
concatenated.  Also returns the log of calls made (the `hotelIds` argument of
each provider call, in order). -/
def collectOffers (calls : Nat → OfferCall) (ids : List String) :
    Except Unit (List HotelOffer) × List (List String) :=
  let ids1 := ids.take 50
  let ids2 := (ids.drop 50).take 50
  match attemptLoop calls 0 5 with
  | (.error _, u1) => (.error (), List.replicate u1 ids1)
  | (.ok d1, u1) =>
    match attemptLoop calls u1 5 with
    | (.error _, u2) =>
      (.error (), List.replicate u1 ids1 ++ List.replicate u2 ids2)
    | (.ok d2, u2) =>
      (.ok (d1.getD [] ++ d2.getD []),
       List.replicate u1 ids1 ++ List.replicate u2 ids2)

/-- The iteration order of the nested loops at lines 86-87: every offer of
every hotel-offer record, tagged with its hotel's name. -/
def flatOffers (hos : List HotelOffer) : List (String × Offer) :=
  hos.flatMap (fun h => h.offers.map (fun o => (h.hotelName, o)))

/-- The dict recorded at lines 91-99 for the pair `(hotel name, offer)`. -/
def mkRecord (people : Int) (checkInDate checkOutDate : String)
    (p : String × Offer) : OfferRecord :=
  { hotelName := p.1
    offerTotalAccommodationAmount := p.2.priceTotal
    offerCurrency := p.2.currency
    offerRoomDescription := p.2.roomDesc
    people := people
    checkInDate := checkInDate
    checkOutDate := checkOutDate }

/-- Lines 88-99: the body of the scan — on strict improvement over the
tracked best price, record a new best offer. -/
def reduceStep (people : Int) (ci co : String)
    (acc : ℚ × Option OfferRecord) (p : String × Offer) :
    ℚ × Option OfferRecord :=
  if p.2.priceTotal < acc.1 then
    (p.2.priceTotal, some (mkRecord people ci co p))
  else acc

/-- Lines 84-101: `bestprice = 1000000000000; bestOffer = None`, then the
nested scan; the function's normal return value is `bestOffer` (possibly
`None`). -/
def reduceBest (people : Int) (ci co : String) (hos : List HotelOffer) :
    Option OfferRecord :=
  (hos.foldl
    (fun acc h =>
      h.offers.foldl
        (fun a o => reduceStep people ci co a (h.hotelName, o)) acc)
    ((1000000000000 : ℚ), none)).2

/-- The value `get_best_offer` hands back across the tool boundary: an offer
dict, Python `None` (the un-updated `bestOffer`), or the `except`-branch dict
`{"error": "No Offers Found"}`. -/
inductive BestOfferOut
  | offer (r : OfferRecord)
  | pyNone
  | err (msg : String)
deriving DecidableEq, Repr

/-- Embedding of `get_best_offer` (lines 63-103).  `listing` is the outcome
of the hotel-listing call (lines 68-69, already projected to the `hotelId`
list); `calls` the offer-search oracle.  Any raise anywhere inside the `try`
yields the error dict; otherwise the reduction's result (possibly Python
`None`) is returned.  The second component is the log of offer-search calls
(the `hotelIds` slice each call was given). -/
def get_best_offer (listing : Except Unit (List String))
    (calls : Nat → OfferCall) (people : Int)
    (checkInDate checkOutDate : String) :
    BestOfferOut × List (List String) :=
  match listing with
  | .error _ => (.err "No Offers Found", [])
  | .ok ids =>
    match collectOffers calls ids with
    | (.error _, log) => (.err "No Offers Found", log)
    | (.ok hotelOffers, log) =>
      match reduceBest people checkInDate checkOutDate hotelOffers with
      | some r => (.offer r, log)
      | none => (.pyNone, log)

/-! ## Self-description tool and the agent loop (lines 130-199) -/

/-- A tool registration: its dispatch name and whether the `@tool` decorator
marked it `return_direct` (terminal). -/
structure ToolDecl where
  name : String
  return_direct : Bool
deriving DecidableEq, Repr

/-- Line 147 / line 153: the registered tool set, keyed by name.  Only
`about_you` (line 130) carries `return_direct=True`. -/
def toolsRegistry : List ToolDecl :=
  [⟨"get_iata_of_city", false⟩, ⟨"get_best_offer", false⟩,
   ⟨"get_price_in_wanted_currency", false⟩, ⟨"about_you", true⟩]

/-- The value of `about_you()` (lines 131-134). -/
def about_you : List (String × PyVal) :=
  [("agent_services_info",
    .vStr "You can search for the best hotel offers for the city you want based on your travel criteria. You can also get the offer at the currency you prefer. ")]

/-- A tool-call request as emitted by the reasoning model: name, argument
mapping, call identifier. -/
structure ToolCall where
  name : String
  args : List (String × PyVal)
  id : String
deriving DecidableEq, Repr

/-- A message of the `AgentState`'s history. `toolMsg` is a `ToolMessage`
carrying the raw tool return value, the tool name and the originating call
id (lines 163-169). -/
inductive Msg
  | system (content : String)
  | user (content : String)
  | assistant (content : String) (tool_calls : List ToolCall)
  | toolMsg (content : List (String × PyVal)) (name : String)
      (tool_call_id : String)
deriving DecidableEq, Repr

/-- `.tool_calls` of a message; the graph only reads it on assistant
messages (the node after which `continue_or_end` / `calling_tools` run). -/
def Msg.toolCalls : Msg → List ToolCall
  | .assistant _ tcs => tcs
  | _ => []

/-- `.content` of a message (tool-result content is a dict, surfaced here
only for assistant/user/system messages, which is all the adapter reads). -/
def Msg.contentText : Msg → Option String
  | .system c => some c
  | .user c => some c
  | .assistant c _ => some c
  | .toolMsg _ _ _ => none

/-- The call id carried by a `ToolMessage`, if the message is one. -/
def Msg.toolIdOf : Msg → Option String
  | .toolMsg _ _ i => some i
  | _ => none

/-- Embedding of the loop body of `calling_tools` (lines 160-169) on a
request list.  `invoke` is the oracle giving each dispatched tool's raw
return value (each tool is a pure request/response against an external
provider, spec §5).  An unregistered name makes `tools_by_name[...]` raise
`KeyError` (`.error`), aborting the phase. -/
def dispatchCalls (invoke : String → List (String × PyVal) → List (String × PyVal)) :
    List ToolCall → Except Unit (List Msg)
  | [] => .ok []
  | c :: rest =>
    if (toolsRegistry.map ToolDecl.name).contains c.name then
      match dispatchCalls invoke rest with
      | .error e => .error e
      | .ok ms => .ok (Msg.toolMsg (invoke c.name c.args) c.name c.id :: ms)
    else .error ()

/-- `calling_tools` (lines 159-170): dispatch every tool call of the last
message, returning the `ToolMessage`s to append. -/
def calling_tools (invoke : String → List (String × PyVal) → List (String × PyVal))
    (msgs : List Msg) : Except Unit (List Msg) :=
  dispatchCalls invoke ((msgs.getLastD (.user "")).toolCalls)

/-- `continue_or_end` (lines 172-176): `"end"` iff the last message has no
(falsy) `tool_calls`. -/
def continue_or_end (msgs : List Msg) : Bool :=
  ((msgs.getLastD (.user "")).toolCalls).isEmpty

/-- A node of the compiled `workflow` graph (lines 180-199): the two named
nodes plus `END`. -/
inductive Node
  | thought_llm
  | tool_set
  | done
deriving DecidableEq, Repr

/-- One transition of the compiled graph.  At `thought_llm` the model reply
is appended (`calling_model`, lines 155-157; `add_messages` appends fresh
messages) and the conditional edge (lines 188-195) picks `END` or
`tool_set`; at `tool_set` the tool results are appended and the
**unconditional** edge of line 197 returns to `thought_llm` — no
`return_direct` check exists anywhere in the graph. -/
def stepGraph (llm : List Msg → Msg)
    (invoke : String → List (String × PyVal) → List (String × PyVal)) :
    Node × List Msg → Except Unit (Node × List Msg)
  | (.thought_llm, msgs) =>
    let m := llm msgs
    let msgs' := msgs ++ [m]
    .ok (if continue_or_end msgs' then .done else .tool_set, msgs')
  | (.tool_set, msgs) =>
    match calling_tools invoke msgs with
    | .error e => .error e
    | .ok results => .ok (.thought_llm, msgs ++ results)
  | (.done, msgs) => .ok (.done, msgs)

/-- Run the graph for at most `fuel` node executions, recording the trace of
nodes executed (Reasoning = `thought_llm`, Acting = `tool_set`) and the
final outcome. -/
def runGraph (llm : List Msg → Msg)
    (invoke : String → List (String × PyVal) → List (String × PyVal)) :
    Nat → Node × List Msg → List Node × Except Unit (Node × List Msg)
  | 0, st => ([], .ok st)
  | fuel + 1, st =>
    match st with
    | (.done, msgs) => ([], .ok (.done, msgs))
    | _ =>
      match stepGraph llm invoke st with
      | .error e => ([st.1], .error e)
      | .ok st' =>
        let r := runGraph llm invoke fuel st'
        (st.1 :: r.1, r.2)

/-! ## Helper lemmas -/

theorem getLastD_append_singleton (l : List Msg) (m d : Msg) :
    (l ++ [m]).getLastD d = m := by
  induction l with
  | nil => rfl
  | cons a t ih =>
    rw [List.cons_append]
    cases t with
    | nil => rfl
    | cons b t' => simpa using ih

theorem outSet_ne_nil (d : List (Option String × List (String × PyVal)))
    (k : Option String) (v : List (String × PyVal)) : outSet d k v ≠ [] := by
  unfold outSet
  cases d with
  | nil => simp
  | cons a t =>
    split
    · simp
    · simp

theorem buildLoop_ne_nil (records : List CityRecord)
    (d : List (Option String × List (String × PyVal))) (hd : d ≠ []) :
    records.foldl (fun d i => outSet d i.iataCode (entryOf i)) d ≠ [] := by
  induction records generalizing d with
  | nil => exact hd
  | cons r rs ih => exact ih _ (outSet_ne_nil _ _ _)

theorem buildOutput_ne_nil (records : List CityRecord) (h : records ≠ []) :
    buildOutput records ≠ [] := by
  cases records with
  | nil => exact absurd rfl h
  | cons r rs =>
    unfold buildOutput
    rw [List.foldl_cons]
    exact buildLoop_ne_nil rs _ (outSet_ne_nil _ _ _)

/-! ## Claim theorems -/

/-- C2. The claim says `get_price_in_wanted_currency` never lets a fault
cross the tool boundary.  The code has no `try/except`: a raising
rate-provider call propagates verbatim, and truthy data without a
`conversion_rates` key raises `KeyError` at the subscription — both escape
to the agent loop instead of becoming
`{error: "could not estimate price"}`. -/
theorem currency_tool_propagates_fault :
    get_price_in_wanted_currency (.raise "ConnectionError") "USD" "EUR" 100 =
      .error "ConnectionError" ∧
    get_price_in_wanted_currency (.result (some none)) "USD" "EUR" 100 =
      .error "KeyError: conversion_rates" :=
  ⟨rfl, rfl⟩

/-- C3. The claim says that when listing, retried batch queries and the
reduction yield no offer, `get_best_offer` returns
`{error: "no offers found"}`.  Evaluating the code on a provider that
returns no data on all ten calls: every batch exhausts its 5 attempts and
the tool returns Python `None` (`bestOffer` was never set), not the error
dict — the error dict is only produced by the `except` branch. -/
theorem best_offer_none_on_exhausted_retries :
    get_best_offer (.ok ["H1"]) (fun _ => .nodata) 2 "2025-01-01" "2025-01-02" =
      (.pyNone, List.replicate 5 ["H1"] ++ List.replicate 5 []) := by
  rfl

/-- C4. The claim says `about_you` is terminal: its result ends the loop
without a further reasoning pass.  The registry does mark it
`return_direct = true` (line 130), but the compiled graph's unconditional
edge `tool_set → thought_llm` (line 197) never consults that flag: with a
model that requests `about_you`, three executed nodes are
Reasoning, Acting, Reasoning — the tool result is fed back to the reasoning
phase instead of ending the loop. -/
theorem about_you_not_terminal :
    (⟨"about_you", true⟩ : ToolDecl) ∈ toolsRegistry ∧
    (runGraph
      (fun _ => .assistant "" [⟨"about_you", [], "call_1"⟩])
      (fun n _ => if n = "about_you" then about_you else [])
      3 (.thought_llm, [.user "what can you do"])).1 =
      [.thought_llm, .tool_set, .thought_llm] := by
  exact ⟨by decide, rfl⟩

/-- C7 counterexample. The claim says an empty final result set yields
`{error: "city not found"}`.  On a provider that succeeds with zero
records, the filter and fallback are both empty, the build loop never runs,
and the code returns the **empty mapping** `{}` — a normal (empty) dict,
not the error dict. -/
theorem city_empty_result_cex :
    get_iata_of_city (.ok []) "Atlantis" "GR" = .dict [] ∧
    get_iata_of_city (.ok []) "Atlantis" "GR" ≠
      .errorDict "The city not found (no IATA code)." := by
  exact ⟨rfl, by decide⟩

/-- C7 amended: a failing provider call yields the error dict
`{"error": "The city not found (no IATA code)."}` (the spec's
"city not found"), while an empty final result set yields the empty
mapping rather than the error. -/
theorem city_fault_vs_empty (city country : String) :
    get_iata_of_city (.error ()) city country =
      .errorDict "The city not found (no IATA code)." ∧
    get_iata_of_city (.ok []) city country = .dict [] :=
  ⟨rfl, rfl⟩

theorem runGraph_done (llm : List Msg → Msg)
    (invoke : String → List (String × PyVal) → List (String × PyVal))
    (n : Nat) (msgs : List Msg) :
    runGraph llm invoke n (.done, msgs) = ([], .ok (.done, msgs)) := by
  cases n <;> rfl

/-- C6. When the provider returns a non-empty record list but no record's
country code matches, the filter at line 37 is empty, line 39 falls back to
the full unfiltered list, and the output mapping is built from it — the
result is the (non-empty) mapping over all records, not an empty result and
not the error dict. -/
theorem city_fallback_on_no_match (cities : List CityRecord)
    (city country : String) (hne : cities ≠ [])
    (hnomatch : ∀ i ∈ cities, countryMatches country i = false) :
    get_iata_of_city (.ok cities) city country = .dict (buildOutput cities) ∧
    buildOutput cities ≠ [] := by
  have hfil : cities.filter (countryMatches country) = [] :=
    List.filter_eq_nil_iff.mpr (by intro a ha; simp [hnomatch a ha])
  exact ⟨by unfold get_iata_of_city; simp [hfil],
         buildOutput_ne_nil cities hne⟩

/-- Witness for C6: a single Athens record whose country code is `US` while
`GR` was expected — the output is the mapping built from the full list. -/
theorem city_fallback_on_no_match_witness :
    get_iata_of_city
      (.ok [⟨some "Athens", some "ATH", [("countryCode", .vStr "US")], []⟩])
      "Athens" "GR" =
      .dict (buildOutput
        [⟨some "Athens", some "ATH", [("countryCode", .vStr "US")], []⟩]) ∧
    buildOutput
      [⟨some "Athens", some "ATH", [("countryCode", .vStr "US")], []⟩] ≠ [] :=
  city_fallback_on_no_match _ "Athens" "GR" (by decide) (by decide)

/-- C9. If the reasoning model's first response carries zero tool calls,
`continue_or_end` routes `thought_llm` straight to `END`: the executed node
trace is exactly one Reasoning node, no Acting node, and the appended model
message — whose content is the final answer the adapter extracts — is the
last message of the final state. -/
theorem agent_loop_single_reasoning (llm : List Msg → Msg)
    (invoke : String → List (String × PyVal) → List (String × PyVal))
    (msgs₀ : List Msg) (fuel : Nat)
    (hzero : (llm msgs₀).toolCalls = []) (hfuel : 1 ≤ fuel) :
    runGraph llm invoke fuel (.thought_llm, msgs₀) =
      ([.thought_llm], .ok (.done, msgs₀ ++ [llm msgs₀])) ∧
    (msgs₀ ++ [llm msgs₀]).getLastD (.user "") = llm msgs₀ := by
  refine ⟨?_, getLastD_append_singleton _ _ _⟩
  have hend : continue_or_end (msgs₀ ++ [llm msgs₀]) = true := by
    unfold continue_or_end
    rw [getLastD_append_singleton, hzero]
    rfl
  cases fuel with
  | zero => omega
  | succ n =>
    have hstep : stepGraph llm invoke (.thought_llm, msgs₀) =
        .ok (.done, msgs₀ ++ [llm msgs₀]) := by
      simp [stepGraph, hend]
    simp [runGraph, hstep, runGraph_done]

/-- Witness for C9: a scripted model that immediately answers "hello". -/
theorem agent_loop_single_reasoning_witness :
    runGraph (fun _ => .assistant "hello" []) (fun _ _ => []) 4
        (.thought_llm, [.user "hi"]) =
      ([Node.thought_llm],
       Except.ok (Node.done, [Msg.user "hi", Msg.assistant "hello" []])) ∧
    ([Msg.user "hi"] ++ [Msg.assistant "hello" []]).getLastD (Msg.user "") =
      .assistant "hello" [] :=
  agent_loop_single_reasoning (fun _ => .assistant "hello" []) (fun _ _ => [])
    [.user "hi"] 4 rfl (by omega)

theorem dispatchCalls_ok
    (invoke : String → List (String × PyVal) → List (String × PyVal))
    (calls : List ToolCall)
    (hreg : ∀ c ∈ calls,
      (toolsRegistry.map ToolDecl.name).contains c.name = true) :
    dispatchCalls invoke calls =
      .ok (calls.map (fun c => Msg.toolMsg (invoke c.name c.args) c.name c.id)) := by
  induction calls with
  | nil => rfl
  | cons c rest ih =>
    have hc := hreg c (by simp)
    have hrest := ih (fun d hd => hreg d (by simp [hd]))
    unfold dispatchCalls
    rw [hc, hrest]
    simp

theorem countP_id_eq_one (calls : List ToolCall) (c : ToolCall)
    (hnd : (calls.map ToolCall.id).Nodup) (hc : c ∈ calls) :
    calls.countP (fun d => d.id == c.id) = 1 := by
  induction calls with
  | nil => cases hc
  | cons d rest ih =>
    rw [List.map_cons, List.nodup_cons] at hnd
    rcases List.mem_cons.mp hc with rfl | hcr
    · rw [List.countP_cons_of_pos _ _ (by simp),
        List.countP_eq_zero.mpr ?_]
      intro e he hbeq
      exact hnd.1 (List.mem_map.mpr ⟨e, he, by simpa using hbeq.symm⟩)
    · rw [List.countP_cons_of_neg _ _ ?_]
      · exact ih hnd.2 hcr
      · intro hbeq
        refine hnd.1 (List.mem_map.mpr ⟨c, hcr, ?_⟩)
        simp only [beq_iff_eq] at hbeq
        exact hbeq.symm

/-- C8. One Acting phase over registered tool names dispatches every request
in order: it yields one Tool Result message per request, carrying the
request's tool-call identifier unmodified, in the order the requests were
issued; when the identifiers are distinct, each identifier appears on
exactly one Tool Result message. -/
theorem acting_phase_round_trip
    (invoke : String → List (String × PyVal) → List (String × PyVal))
    (calls : List ToolCall)
    (hreg : ∀ c ∈ calls,
      (toolsRegistry.map ToolDecl.name).contains c.name = true) :
    ∃ results, dispatchCalls invoke calls = .ok results ∧
      results.length = calls.length ∧
      results.map Msg.toolIdOf = calls.map (fun c => some c.id) ∧
      ((calls.map ToolCall.id).Nodup →
        ∀ c ∈ calls,
          results.countP (fun m => m.toolIdOf == some c.id) = 1) := by
  refine ⟨_, dispatchCalls_ok invoke calls hreg, by simp, ?_, ?_⟩
  · simp [Msg.toolIdOf]
  · intro hnd c hc
    rw [List.countP_map]
    rw [List.countP_congr ?_]
    · exact countP_id_eq_one calls c hnd hc
    · intro d _
      simp [Function.comp, Msg.toolIdOf]

/-- Witness for C8: two distinct requests to registered tools. -/
theorem acting_phase_round_trip_witness :
    ∃ results,
      dispatchCalls (fun _ _ => [])
        [⟨"about_you", [], "id_a"⟩, ⟨"get_best_offer", [], "id_b"⟩] =
        .ok results ∧
      results.length =
        ([⟨"about_you", [], "id_a"⟩,
          ⟨"get_best_offer", [], "id_b"⟩] : List ToolCall).length ∧
      results.map Msg.toolIdOf =
        ([⟨"about_you", [], "id_a"⟩,
          ⟨"get_best_offer", [], "id_b"⟩] : List ToolCall).map
          (fun c => some c.id) ∧
      ((([⟨"about_you", [], "id_a"⟩,
          ⟨"get_best_offer", [], "id_b"⟩] : List ToolCall).map
            ToolCall.id).Nodup →
        ∀ c ∈ ([⟨"about_you", [], "id_a"⟩,
                ⟨"get_best_offer", [], "id_b"⟩] : List ToolCall),
          results.countP (fun m => m.toolIdOf == some c.id) = 1) :=
  acting_phase_round_trip (fun _ _ => [])
    [⟨"about_you", [], "id_a"⟩, ⟨"get_best_offer", [], "id_b"⟩] (by decide)

theorem attemptLoop_no_raise (calls : Nat → OfferCall)
    (hnr : ∀ m, calls m ≠ .raise) :
    ∀ (fuel k : Nat), 1 ≤ fuel →
      ∃ d u, attemptLoop calls k fuel = (.ok d, u) ∧ 1 ≤ u ∧ u ≤ fuel := by
  intro fuel
  induction fuel with
  | zero => intro k h; omega
  | succ n ih =>
    intro k _
    cases hck : calls k with
    | raise => exact absurd hck (hnr k)
    | nodata =>
      by_cases hn : 1 ≤ n
      · obtain ⟨d, u, he, h1, h2⟩ := ih (k + 1) hn
        exact ⟨d, u + 1, by simp [attemptLoop, hck, he], by omega, by omega⟩
      · have hn0 : n = 0 := by omega
        subst hn0
        exact ⟨none, 1, by simp [attemptLoop, hck], le_refl _, by omega⟩
    | data ds =>
      exact ⟨some ds, 1, by simp [attemptLoop, hck], le_refl _, by omega⟩

/-- C5. For a functioning provider (listing succeeded, no call raises),
`get_best_offer` queries exactly the two fixed batches `ids[0:50]` and
`ids[50:100]` — each batch attempted between 1 and 5 times, a batch that
keeps returning no result being abandoned after its 5 attempts with the
next batch still queried — so at most 100 identifiers are ever sent. -/
theorem best_offer_batching (ids : List String) (calls : Nat → OfferCall)
    (people : Int) (ci co : String)
    (hnr : ∀ m, calls m ≠ .raise) :
    ∃ u1 u2, 1 ≤ u1 ∧ u1 ≤ 5 ∧ 1 ≤ u2 ∧ u2 ≤ 5 ∧
      (get_best_offer (.ok ids) calls people ci co).2 =
        List.replicate u1 (ids.take 50) ++
          List.replicate u2 ((ids.drop 50).take 50) ∧
      (ids.take 50).length ≤ 50 ∧ ((ids.drop 50).take 50).length ≤ 50 ∧
      ids.take 50 ++ (ids.drop 50).take 50 = ids.take 100 := by
  obtain ⟨d1, u1, he1, h11, h12⟩ := attemptLoop_no_raise calls hnr 5 0 (by omega)
  obtain ⟨d2, u2, he2, h21, h22⟩ := attemptLoop_no_raise calls hnr 5 u1 (by omega)
  have hcol : collectOffers calls ids =
      (.ok (d1.getD [] ++ d2.getD []),
       List.replicate u1 (ids.take 50) ++
         List.replicate u2 ((ids.drop 50).take 50)) := by
    simp only [collectOffers, he1, he2]
  refine ⟨u1, u2, h11, h12, h21, h22, ?_, List.length_take_le _ _,
    List.length_take_le _ _, by rw [show (100 : Nat) = 50 + 50 from rfl,
      List.take_add]⟩
  simp only [get_best_offer, hcol]
  cases reduceBest people ci co (d1.getD [] ++ d2.getD []) <;> rfl

/-- Witness for C5: one hotel id, a provider that always returns no data —
both batches are attempted 5 times each. -/
theorem best_offer_batching_witness :
    ∃ u1 u2, 1 ≤ u1 ∧ u1 ≤ 5 ∧ 1 ≤ u2 ∧ u2 ≤ 5 ∧
      (get_best_offer (.ok ["H1"]) (fun _ => .nodata) 2
          "2025-01-01" "2025-01-02").2 =
        List.replicate u1 ((["H1"] : List String).take 50) ++
          List.replicate u2 (((["H1"] : List String).drop 50).take 50) ∧
      ((["H1"] : List String).take 50).length ≤ 50 ∧
      (((["H1"] : List String).drop 50).take 50).length ≤ 50 ∧
      (["H1"] : List String).take 50 ++
          ((["H1"] : List String).drop 50).take 50 =
        (["H1"] : List String).take 100 :=
  best_offer_batching ["H1"] (fun _ => .nodata) 2 "2025-01-01" "2025-01-02"
    (fun _ h => OfferCall.noConfusion h)

theorem foldl_reduceStep_const (people : Int) (ci co : String)
    (l : List (String × Offer)) (b₀ : ℚ) (r₀ : Option OfferRecord)
    (h : ∀ p ∈ l, b₀ ≤ p.2.priceTotal) :
    l.foldl (reduceStep people ci co) (b₀, r₀) = (b₀, r₀) := by
  induction l with
  | nil => rfl
  | cons p t ih =>
    rw [List.foldl_cons,
      show reduceStep people ci co (b₀, r₀) p = (b₀, r₀) from by
        simp [reduceStep, not_lt.mpr (h p (by simp))]]
    exact ih (fun q hq => h q (by simp [hq]))

theorem foldl_reduceStep_firstMin (people : Int) (ci co : String) :
    ∀ (l : List (String × Offer)) (b₀ : ℚ) (r₀ : Option OfferRecord),
      (∃ p ∈ l, p.2.priceTotal < b₀) →
      ∃ i : Fin l.length,
        (l.foldl (reduceStep people ci co) (b₀, r₀)).2 =
          some (mkRecord people ci co (l.get i)) ∧
        (l.get i).2.priceTotal < b₀ ∧
        (∀ p ∈ l, (l.get i).2.priceTotal ≤ p.2.priceTotal) ∧
        (∀ j : Fin l.length, j.val < i.val →
          (l.get i).2.priceTotal < (l.get j).2.priceTotal) := by
  intro l
  induction l with
  | nil => intro b₀ r₀ h; simp at h
  | cons p t ih =>
    intro b₀ r₀ h
    rw [List.foldl_cons]
    by_cases hp : p.2.priceTotal < b₀
    · rw [show reduceStep people ci co (b₀, r₀) p =
          (p.2.priceTotal, some (mkRecord people ci co p)) from by
        simp [reduceStep, hp]]
      by_cases hex : ∃ q ∈ t, q.2.priceTotal < p.2.priceTotal
      · obtain ⟨i', h1, h2, h3, h4⟩ := ih p.2.priceTotal
          (some (mkRecord people ci co p)) hex
        refine ⟨i'.succ, h1, h2.trans hp, ?_, ?_⟩
        · intro q hq
          rcases List.mem_cons.mp hq with rfl | hqt
          · exact le_of_lt h2
          · exact h3 q hqt
        · intro j hj
          obtain ⟨jv, hjs⟩ := j
          cases jv with
          | zero => exact h2
          | succ jv =>
            have hjv : jv < i'.val := Nat.lt_of_succ_lt_succ hj
            have hjt : jv < t.length := by
              simp only [List.length_cons] at hjs; omega
            exact h4 ⟨jv, hjt⟩ hjv
      · push_neg at hex
        rw [foldl_reduceStep_const people ci co t _ _ hex]
        refine ⟨⟨0, by simp⟩, rfl, hp, ?_, ?_⟩
        · intro q hq
          rcases List.mem_cons.mp hq with rfl | hqt
          · exact le_refl _
          · exact hex q hqt
        · intro j hj
          exact absurd hj (Nat.not_lt_zero _)
    · rw [show reduceStep people ci co (b₀, r₀) p = (b₀, r₀) from by
        simp [reduceStep, hp]]
      have hex : ∃ q ∈ t, q.2.priceTotal < b₀ := by
        obtain ⟨q, hq, hlt⟩ := h
        rcases List.mem_cons.mp hq with rfl | hqt
        · exact absurd hlt hp
        · exact ⟨q, hqt, hlt⟩
      obtain ⟨i', h1, h2, h3, h4⟩ := ih b₀ r₀ hex
      have hbp : b₀ ≤ p.2.priceTotal := not_lt.mp hp
      refine ⟨i'.succ, h1, h2, ?_, ?_⟩
      · intro q hq
        rcases List.mem_cons.mp hq with rfl | hqt
        · exact le_of_lt (lt_of_lt_of_le h2 hbp)
        · exact h3 q hqt
      · intro j hj
        obtain ⟨jv, hjs⟩ := j
        cases jv with
        | zero => exact lt_of_lt_of_le h2 hbp
        | succ jv =>
          have hjv : jv < i'.val := Nat.lt_of_succ_lt_succ hj
          have hjt : jv < t.length := by
            simp only [List.length_cons] at hjs; omega
          exact h4 ⟨jv, hjt⟩ hjv

theorem reduceBest_eq_flat (people : Int) (ci co : String)
    (hos : List HotelOffer) :
    reduceBest people ci co hos =
      ((flatOffers hos).foldl (reduceStep people ci co)
        ((1000000000000 : ℚ), none)).2 := by
  have key : ∀ (hs : List HotelOffer) (init : ℚ × Option OfferRecord),
      hs.foldl (fun acc h => h.offers.foldl
        (fun a o => reduceStep people ci co a (h.hotelName, o)) acc) init =
      (flatOffers hs).foldl (reduceStep people ci co) init := by
    intro hs
    induction hs with
    | nil => intro init; rfl
    | cons h t iht =>
      intro init
      rw [List.foldl_cons,
        show flatOffers (h :: t) =
          h.offers.map (fun o => (h.hotelName, o)) ++ flatOffers t from by
            simp [flatOffers],
        List.foldl_append, List.foldl_map]
      exact iht _
  unfold reduceBest
  rw [key]

theorem reduceBest_none (people : Int) (ci co : String)
    (hos : List HotelOffer)
    (h : ∀ p ∈ flatOffers hos, (1000000000000 : ℚ) ≤ p.2.priceTotal) :
    reduceBest people ci co hos = none := by
  rw [reduceBest_eq_flat, foldl_reduceStep_const _ _ _ _ _ _ h]

theorem reduceBest_some_lt (people : Int) (ci co : String)
    (hos : List HotelOffer) (r : OfferRecord)
    (hr : reduceBest people ci co hos = some r) :
    r.offerTotalAccommodationAmount < 1000000000000 := by
  by_cases hex : ∃ p ∈ flatOffers hos, p.2.priceTotal < 1000000000000
  · obtain ⟨i, h1, h2, h3, h4⟩ := foldl_reduceStep_firstMin people ci co
      (flatOffers hos) 1000000000000 none hex
    rw [reduceBest_eq_flat, h1] at hr
    injection hr with hr
    rw [← hr]
    exact h2
  · push_neg at hex
    rw [reduceBest_none people ci co hos hex] at hr
    cases hr

/-- C10. `bestprice` starts at the literal `1000000000000` and only a
*strictly* smaller price updates `bestOffer`: when every retrieved offer's
total is at least `10^12`, the scan never records anything and the tool
returns Python `None` — and dually, any offer record the tool does return
is priced strictly below the sentinel, so an offer at or above `10^12` can
never be returned as best. -/
theorem best_offer_sentinel (people : Int) (ci co : String) :
    (∀ (ids : List String) (calls : Nat → OfferCall)
        (hos : List HotelOffer) (log : List (List String)),
      collectOffers calls ids = (.ok hos, log) →
      (∀ p ∈ flatOffers hos, (1000000000000 : ℚ) ≤ p.2.priceTotal) →
      (get_best_offer (.ok ids) calls people ci co).1 = .pyNone) ∧
    (∀ (listing : Except Unit (List String)) (calls : Nat → OfferCall)
        (r : OfferRecord),
      (get_best_offer listing calls people ci co).1 = .offer r →
      r.offerTotalAccommodationAmount < 1000000000000) := by
  constructor
  · intro ids calls hos log hcol hall
    simp only [get_best_offer, hcol, reduceBest_none people ci co hos hall]
  · intro listing calls r hr
    cases listing with
    | error e => simp [get_best_offer] at hr
    | ok ids =>
      rcases hq : collectOffers calls ids with ⟨res, log⟩
      cases res with
      | error e => simp [get_best_offer, hq] at hr
      | ok hos =>
        cases hred : reduceBest people ci co hos with
        | none => simp [get_best_offer, hq, hred] at hr
        | some rec =>
          simp only [get_best_offer, hq, hred] at hr
          cases hr
          exact reduceBest_some_lt people ci co hos _ hred
/-- Witness for C10: the only retrieved offer is priced exactly at the
sentinel `10^12`; the tool returns Python `None`. -/
theorem best_offer_sentinel_witness :
    (get_best_offer (.ok ["H1"])
      (fun k => if k = 0 then
          .data [⟨"Grand Hotel", [⟨1000000000000, "EUR", "Twin room"⟩]⟩]
        else .data [])
      2 "2025-03-01" "2025-03-02").1 = .pyNone :=
  (best_offer_sentinel 2 "2025-03-01" "2025-03-02").1 ["H1"]
    (fun k => if k = 0 then
        .data [⟨"Grand Hotel", [⟨1000000000000, "EUR", "Twin room"⟩]⟩]
      else .data [])
    [⟨"Grand Hotel", [⟨1000000000000, "EUR", "Twin room"⟩]⟩]
    [["H1"], []] (by rfl) (by decide)

/-- C1 counterexample. One offer *is* retrieved (a single hotel with a
single offer priced `10^12`), yet `get_best_offer` returns Python `None`,
not an Offer Record — contradicting the claim that a retrieved offer
always yields a minimal Offer Record. -/
theorem best_offer_retrieved_but_none_cex :
    (get_best_offer (.ok ["H1"])
      (fun k => if k = 0 then
          .data [⟨"Solo Hotel", [⟨1000000000000, "USD", "Single room"⟩]⟩]
        else .data [])
      1 "2025-05-01" "2025-05-02").1 = .pyNone := by
  decide

/-- C1 (amended). Provided at least one retrieved offer is priced strictly
below the `10^12` sentinel, `get_best_offer` returns the Offer Record of an
observed (hotel, offer) pair whose total price is less than or equal to
every offer observed across all successfully retrieved batches, and every
pair seen earlier in scan order is strictly more expensive — i.e. ties
keep the first-seen minimum. -/
theorem best_offer_is_first_minimum (listing : Except Unit (List String))
    (calls : Nat → OfferCall) (people : Int) (ci co : String)
    (ids : List String) (hos : List HotelOffer) (log : List (List String))
    (hlist : listing = .ok ids)
    (hcol : collectOffers calls ids = (.ok hos, log))
    (hsome : ∃ p ∈ flatOffers hos, p.2.priceTotal < 1000000000000) :
    ∃ i : Fin (flatOffers hos).length,
      (get_best_offer listing calls people ci co).1 =
        .offer (mkRecord people ci co ((flatOffers hos).get i)) ∧
      (∀ p ∈ flatOffers hos,
        ((flatOffers hos).get i).2.priceTotal ≤ p.2.priceTotal) ∧
      (∀ j : Fin (flatOffers hos).length, j.val < i.val →
        ((flatOffers hos).get i).2.priceTotal <
          ((flatOffers hos).get j).2.priceTotal) := by
  subst hlist
  obtain ⟨i, h1, h2, h3, h4⟩ := foldl_reduceStep_firstMin people ci co
    (flatOffers hos) 1000000000000 none hsome
  have hred : reduceBest people ci co hos =
      some (mkRecord people ci co ((flatOffers hos).get i)) := by
    rw [reduceBest_eq_flat]; exact h1
  exact ⟨i, by simp only [get_best_offer, hcol, hred], h3, h4⟩

/-- Witness for the amended C1: offers priced 120 and 95 — the returned
record is minimal and first-seen. -/
theorem best_offer_is_first_minimum_witness :
    ∃ i : Fin (flatOffers
        [⟨"Hotel A", [⟨120, "EUR", "Standard"⟩]⟩,
         ⟨"Hotel B", [⟨95, "EUR", "Economy"⟩]⟩]).length,
      (get_best_offer (.ok ["A1", "B2"])
        (fun k => if k = 0 then
            .data [⟨"Hotel A", [⟨120, "EUR", "Standard"⟩]⟩,
                   ⟨"Hotel B", [⟨95, "EUR", "Economy"⟩]⟩]
          else .data [])
        2 "2025-07-01" "2025-07-02").1 =
        .offer (mkRecord 2 "2025-07-01" "2025-07-02"
          ((flatOffers
            [⟨"Hotel A", [⟨120, "EUR", "Standard"⟩]⟩,
             ⟨"Hotel B", [⟨95, "EUR", "Economy"⟩]⟩]).get i)) ∧
      (∀ p ∈ flatOffers
          [⟨"Hotel A", [⟨120, "EUR", "Standard"⟩]⟩,
           ⟨"Hotel B", [⟨95, "EUR", "Economy"⟩]⟩],
        ((flatOffers
          [⟨"Hotel A", [⟨120, "EUR", "Standard"⟩]⟩,
           ⟨"Hotel B", [⟨95, "EUR", "Economy"⟩]⟩]).get i).2.priceTotal ≤
          p.2.priceTotal) ∧
      (∀ j : Fin (flatOffers
          [⟨"Hotel A", [⟨120, "EUR", "Standard"⟩]⟩,
           ⟨"Hotel B", [⟨95, "EUR", "Economy"⟩]⟩]).length, j.val < i.val →
        ((flatOffers
          [⟨"Hotel A", [⟨120, "EUR", "Standard"⟩]⟩,
           ⟨"Hotel B", [⟨95, "EUR", "Economy"⟩]⟩]).get i).2.priceTotal <
          ((flatOffers
            [⟨"Hotel A", [⟨120, "EUR", "Standard"⟩]⟩,
             ⟨"Hotel B", [⟨95, "EUR", "Economy"⟩]⟩]).get j).2.priceTotal) :=
  best_offer_is_first_minimum (.ok ["A1", "B2"])
    (fun k => if k = 0 then
        .data [⟨"Hotel A", [⟨120, "EUR", "Standard"⟩]⟩,
               ⟨"Hotel B", [⟨95, "EUR", "Economy"⟩]⟩]
      else .data [])
    2 "2025-07-01" "2025-07-02" ["A1", "B2"]
    [⟨"Hotel A", [⟨120, "EUR", "Standard"⟩]⟩,
     ⟨"Hotel B", [⟨95, "EUR", "Economy"⟩]⟩]
    [["A1", "B2"], []] rfl (by rfl) (by decide)

/-- Witness for the amended C7 at concrete inputs. -/
theorem city_fault_vs_empty_witness :
    get_iata_of_city (.error ()) "Paris" "FR" =
      .errorDict "The city not found (no IATA code)." ∧
    get_iata_of_city (.ok []) "Paris" "FR" = .dict [] :=
  city_fault_vs_empty "Paris" "FR"
